import Mathlib

/-!
Verification of the pkt_pipeline packet-processing core (pktdump).

Shallow embedding of the C sources:
  src/pkt_pipeline.h  -- data model (pkt_pipeline, pkt_pipeline_instance, ...)
  src/pkt_pipeline.c  -- pktdump_pipeline_add (stage registration)
  src/pkt_inputfile.c -- pktdump_inputsource, pktdump_process_one,
                         pktdump_runpipeline, pktdump_finish
  src/pktdump.c       -- main (exit-status plumbing)

Stage callbacks (pp_init / pp_process) are modelled as pure functions over a
stage-private state type sigma (the C pi_stage_info pointer), the pipeline data
they actually receive read-only (pkt_datalink, their stage number) and, for
pp_process, the packet list they may mutate.  Machine integers are modelled as
Nat / Int; none of the verified paths can overflow 32-bit quantities.
-/

namespace PktDump

/-- PKT_PIPELINE_MAX, pkt_pipeline.h line 110: the capacity of the stage
registry. -/
def PKT_PIPELINE_MAX : Nat := 8

/-- The subset of struct tpacket3_hdr that pktdump_process_one populates
(src/pkt_inputfile.c lines 81-91). -/
structure TPacketHdr where
  tp_sec : Nat
  tp_nsec : Nat
  tp_snaplen : Nat
  tp_len : Nat
  tp_mac : Nat
  tp_status : Nat
deriving Repr, DecidableEq

/-- struct pcap_pkthdr as delivered by libpcap to the per-frame callback:
timestamp (seconds + sub-second fraction, nanoseconds here because the reader
is opened with PCAP_TSTAMP_PRECISION_NANO), captured length, on-wire length. -/
structure PcapPkthdr where
  ts_sec : Nat
  ts_usec : Nat
  caplen : Nat
  len : Nat
deriving Repr, DecidableEq

/-- struct pipeline_hdr (pkt_pipeline.h lines 114-117): one packet descriptor,
holding the native frame header.  The per-stage scratch array
pkt_pipeline_extra is opaque to the engine and unused by the verified
properties, so it is not carried here. -/
structure PipelineHdr where
  pkt_pipeline_hdr : TPacketHdr
deriving Repr, DecidableEq

/-- struct pkt_pipeline_list (pkt_pipeline.h lines 119-122): an array of
optional descriptor pointers (none models a NULL entry, i.e. a claimed
packet) plus the valid extent. -/
structure PktPipelineList where
  pkt_list : List (Option PipelineHdr)
  pkt_extent : Nat
deriving Repr, DecidableEq

/-- struct pkt_pipeline_stage (pkt_pipeline.h lines 125-129).  pp_init
receives the pipeline's pkt_datalink, its assigned stage number and the
current pi_stage_info, and returns the new pi_stage_info together with its
return code.  pp_process additionally receives and returns the packet list.
A none operation models a NULL function pointer. -/
structure PktPipelineStage (σ : Type) where
  pp_name : String
  pp_init : Option (Int → Nat → σ → σ × Int)
  pp_process : Option (Int → Nat → σ → PktPipelineList → σ × PktPipelineList × Int)

/-- struct pkt_pipeline_instance (pkt_pipeline.h lines 131-135). -/
structure PktPipelineInstance (σ : Type) where
  pi_stage : Option (PktPipelineStage σ)
  pi_stage_info : σ
  pi_stage_num : Nat

/-- struct pkt_pipeline (pkt_pipeline.h lines 138-144).  The master packet
list is rebuilt from scratch by every pktdump_process_one call before it is
read, so it is not carried in the persistent state. -/
structure PktPipeline (σ : Type) where
  pkt_datalink : Int
  pkt_stage_next : Nat
  pkt_stages : List (PktPipelineInstance σ)

/-- struct pkt_pipeline_source (pkt_pipeline.h lines 148-152).  The pcap
handle and ps_name play no role in the stage-engine properties; the handle's
allocation state is tracked by CaptureHeap below. -/
structure PktPipelineSource (σ : Type) where
  ps_pipeline : PktPipeline σ

/-- A zeroed pkt_pipeline_instance, as produced by the memset in
pktdump_inputsource (src/pkt_inputfile.c line 48): NULL pi_stage, zeroed
private state, stage number 0. -/
def zeroInstance (σ : Type) [Inhabited σ] : PktPipelineInstance σ :=
  { pi_stage := none, pi_stage_info := default, pi_stage_num := 0 }

/-- The pipeline source as pktdump_inputsource leaves it on success
(src/pkt_inputfile.c lines 47-62): everything zeroed, then pkt_datalink set
from pcap_datalink. -/
def mkInitialSource (σ : Type) [Inhabited σ] (dlt : Int) : PktPipelineSource σ :=
  { ps_pipeline :=
      { pkt_datalink := dlt
        pkt_stage_next := 0
        pkt_stages := List.replicate PKT_PIPELINE_MAX (zeroInstance σ) } }

/-- pktdump_pipeline_add (src/pkt_pipeline.c lines 52-74).  Returns the
updated source and the instance pointer (none models the NULL returned when
the registry is full).  Note: the C code calls pp_init when present but
discards its return code; the model does the same (the second component of
the init result is dropped). -/
def pktdump_pipeline_add {σ : Type} [Inhabited σ]
    (pps : PktPipelineSource σ) (ps : PktPipelineStage σ) :
    PktPipelineSource σ × Option (PktPipelineInstance σ) :=
  if pps.ps_pipeline.pkt_stage_next ≥ PKT_PIPELINE_MAX then
    (pps, none)
  else
    let stage_num := pps.ps_pipeline.pkt_stage_next
    let pipe1 : PktPipeline σ :=
      { pps.ps_pipeline with pkt_stage_next := stage_num + 1 }
    let piOld := pipe1.pkt_stages.getD stage_num (zeroInstance σ)
    let pi1 : PktPipelineInstance σ :=
      { piOld with pi_stage_num := stage_num, pi_stage := some ps }
    let pi2 : PktPipelineInstance σ :=
      match ps.pp_init with
      | some fInit =>
          { pi1 with pi_stage_info := (fInit pipe1.pkt_datalink stage_num pi1.pi_stage_info).1 }
      | none => pi1
    let pipe2 : PktPipeline σ :=
      { pipe1 with pkt_stages := pipe1.pkt_stages.set stage_num pi2 }
    ({ ps_pipeline := pipe2 }, some pi2)

/-- A sequence of pktdump_pipeline_add calls, collecting the returned
instances in order. -/
def registerAll {σ : Type} [Inhabited σ]
    (pps : PktPipelineSource σ) : List (PktPipelineStage σ) →
    PktPipelineSource σ × List (Option (PktPipelineInstance σ))
  | [] => (pps, [])
  | d :: ds =>
      let r := pktdump_pipeline_add pps d
      let rest := registerAll r.1 ds
      (rest.1, r.2 :: rest.2)

/-- The snaplen clamp of pktdump_process_one (src/pkt_inputfile.c lines
84-85): caplen = h->caplen; if(caplen > 65536) caplen = 65536. -/
def clampCaplen (caplen : Nat) : Nat :=
  if caplen > 65536 then 65536 else caplen

/-- sizeof buffer1 in pktdump_process_one (src/pkt_inputfile.c line 73):
unsigned char buffer1[65536+2048]. -/
def BUFFER1_SIZE : Nat := 65536 + 2048

/-- The tpacket3_hdr that pktdump_process_one builds at the head of buffer1
(src/pkt_inputfile.c lines 81-91): header zeroed, tp_mac = 2048, the clamped
caplen stored as tp_snaplen, timestamp and on-wire length copied through. -/
def mkTPacketHdr (h : PcapPkthdr) : TPacketHdr :=
  { tp_sec := h.ts_sec
    tp_nsec := h.ts_usec
    tp_snaplen := clampCaplen h.caplen
    tp_len := h.len
    tp_mac := 2048
    tp_status := 0 }

/-- The contents of buffer1 after the memcpy at src/pkt_inputfile.c line 86:
the frame bytes occupy [2048, 2048 + clamped caplen); bytes outside that
range (and outside the header prefix modelled by TPacketHdr) are
uninitialized stack memory, modelled as none. -/
def frameBuffer (h : PcapPkthdr) (bytes : List Nat) : Nat → Option Nat :=
  fun a =>
    if 2048 ≤ a ∧ a < 2048 + clampCaplen h.caplen then
      some (bytes.getD (a - 2048) 0)
    else
      none

/-- True when the stage slot at index i is non-NULL and has a non-NULL
pp_process, i.e. the test at src/pkt_inputfile.c line 107. -/
def hasProcessOp {σ : Type} [Inhabited σ]
    (stages : List (PktPipelineInstance σ)) (i : Nat) : Bool :=
  match (stages.getD i (zeroInstance σ)).pi_stage with
  | none => false
  | some st => st.pp_process.isSome

/-- One iteration body of the stage loop (src/pkt_inputfile.c lines 105-109):
none when the stage or its process operation is absent (ret stays 0),
otherwise the updated stage array (pi_stage_info written back), the updated
packet list and the stage's return code. -/
def stageStep {σ : Type} [Inhabited σ] (dlt : Int)
    (stages : List (PktPipelineInstance σ)) (ppl : PktPipelineList) (i : Nat) :
    Option (List (PktPipelineInstance σ) × PktPipelineList × Int) :=
  let ppi := stages.getD i (zeroInstance σ)
  match ppi.pi_stage with
  | none => none
  | some st =>
      match st.pp_process with
      | none => none
      | some f =>
          let r := f dlt ppi.pi_stage_num ppi.pi_stage_info ppl
          some (stages.set i { ppi with pi_stage_info := r.1 }, r.2.1, r.2.2)

/-- The stage loop of pktdump_process_one (src/pkt_inputfile.c lines
104-111) over an explicit list of stage indices, instrumented with the list
of indices whose process operation was actually invoked (in invocation
order).  A skipped stage leaves ret at 0; a non-zero return code breaks out
of the loop. -/
def stageLoop {σ : Type} [Inhabited σ] (dlt : Int) :
    List (PktPipelineInstance σ) → PktPipelineList → List Nat →
    List (PktPipelineInstance σ) × PktPipelineList × List Nat
  | stages, ppl, [] => (stages, ppl, [])
  | stages, ppl, i :: rest =>
      match stageStep dlt stages ppl i with
      | none => stageLoop dlt stages ppl rest
      | some (stages1, ppl1, ret) =>
          if ret ≠ 0 then (stages1, ppl1, [i])
          else
            let r := stageLoop dlt stages1 ppl1 rest
            (r.1, r.2.1, i :: r.2.2)

/-- The descriptor entries still present (non-NULL) within the valid extent
of a packet list. -/
def presentEntries (ppl : PktPipelineList) : List PipelineHdr :=
  (ppl.pkt_list.take ppl.pkt_extent).reduceOption

/-- Observable outcome of one pktdump_process_one call (one dispatch cycle):
the updated source, the indices of the invoked stages, the packet list as
the loop left it, the buffer contents built for the frame, and the
descriptor entries whose storage is reclaimed when the call returns. -/
structure ProcessOneResult (σ : Type) where
  pps : PktPipelineSource σ
  invoked : List Nat
  finalList : PktPipelineList
  buffer : Nat → Option Nat
  released : List PipelineHdr

/-- pktdump_process_one (src/pkt_inputfile.c lines 68-113): build the
tpacket3_hdr and buffer for the frame, make it the sole entry of a
one-element packet list, run the stage loop over indices
0 .. min(pkt_stage_next, PKT_PIPELINE_MAX) - 1, and return.  buffer1, pkt0
and pkt1 are automatic storage, so when the function returns every
descriptor entry still present in the list has its backing storage
reclaimed for reuse before the next frame is dispatched; the released field
records those entries. -/
def pktdump_process_one {σ : Type} [Inhabited σ]
    (pps : PktPipelineSource σ) (h : PcapPkthdr) (bytes : List Nat) :
    ProcessOneResult σ :=
  let th := mkTPacketHdr h
  let ppl0 : PktPipelineList := { pkt_list := [some { pkt_pipeline_hdr := th }], pkt_extent := 1 }
  let pp := pps.ps_pipeline
  let bound := min pp.pkt_stage_next PKT_PIPELINE_MAX
  let r := stageLoop pp.pkt_datalink pp.pkt_stages ppl0 (List.range bound)
  { pps := { ps_pipeline := { pp with pkt_stages := r.1 } }
    invoked := r.2.2
    finalList := r.2.1
    buffer := frameBuffer h bytes
    released := presentEntries r.2.1 }

/-- The first registered stage index that would actually be invoked for a
batch: the least index below min(pkt_stage_next, PKT_PIPELINE_MAX) whose
slot has a process operation. -/
def firstInvokable {σ : Type} [Inhabited σ] (pp : PktPipeline σ) : Option Nat :=
  (List.range (min pp.pkt_stage_next PKT_PIPELINE_MAX)).find?
    (fun i => hasProcessOp pp.pkt_stages i)

/-- The success path of pcap_dispatch(handle, -1, pktdump_process_one, pps)
(capture boundary, spec section 6): libpcap invokes the callback once per
captured frame until the file is exhausted.  Returns the final source and
the per-frame invocation traces. -/
def pcapDispatch {σ : Type} [Inhabited σ]
    (pps : PktPipelineSource σ) : List (PcapPkthdr × List Nat) →
    PktPipelineSource σ × List (List Nat)
  | [] => (pps, [])
  | f :: fs =>
      let r := pktdump_process_one pps f.1 f.2
      let rest := pcapDispatch r.pps fs
      (rest.1, r.invoked :: rest.2)

/-- The result mapping of pktdump_runpipeline (src/pkt_inputfile.c lines
115-129): -2 and -1 pass through, any other dispatch result maps to 0. -/
def runpipelineCode (result : Int) : Int :=
  if result = -2 then -2 else if result = -1 then -1 else 0

/-- pktdump_runpipeline (src/pkt_inputfile.c lines 115-129) on the success
path of pcap_dispatch, whose result is then the number of frames
processed. -/
def pktdump_runpipeline {σ : Type} [Inhabited σ]
    (pps : PktPipelineSource σ) (frames : List (PcapPkthdr × List Nat)) :
    PktPipelineSource σ × Int :=
  let d := pcapDispatch pps frames
  (d.1, runpipelineCode (frames.length : Int))

/-- Heap-allocation state relevant to open/close: whether the malloc'd
pkt_pipeline_source block is live and whether the pcap handle from
pcap_open_offline_with_tstamp_precision is open. -/
structure CaptureHeap where
  sourceAllocated : Bool
  pcapHandleOpen : Bool
deriving Repr, DecidableEq

/-- pktdump_finish (src/pkt_inputfile.c lines 131-135):
if(pps != NULL) free(pps); return 1.  A none argument models a NULL pointer
(as main holds after it nulls pps).  free releases the source block only;
nothing touches the pcap handle. -/
def pktdump_finish {σ : Type} [Inhabited σ]
    (pps : Option (PktPipelineSource σ)) (heap : CaptureHeap) :
    CaptureHeap × Int :=
  match pps with
  | some _ => ({ heap with sourceAllocated := false }, 1)
  | none => (heap, 1)

/-- The possible outcomes of pktdump_inputsource. -/
inductive OpenOutcome (σ : Type) where
  | ok (pps : PktPipelineSource σ)
  | nullResult (ebufHasDiagnostic : Bool)
  | nullDeref

/-- pktdump_inputsource (src/pkt_inputfile.c lines 43-63).  mallocOk is the
allocator's outcome; pcapReader is none when
pcap_open_offline_with_tstamp_precision fails (writing a diagnostic into
ebuf) and otherwise carries the datalink type pcap_datalink reports for the
handle.  The C code does not test the malloc result before memset(pps, 0,
...) and pps->ps_pcap_reader, so a failed allocation dereferences a null
pointer (nullDeref) instead of returning NULL. -/
def pktdump_inputsource (σ : Type) [Inhabited σ]
    (mallocOk : Bool) (pcapReader : Option Int) : OpenOutcome σ :=
  if mallocOk = false then
    OpenOutcome.nullDeref
  else
    match pcapReader with
    | none => OpenOutcome.nullResult true
    | some dlt => OpenOutcome.ok (mkInitialSource σ dlt)

/-- The tail of main (src/pktdump.c lines 240-249): with a source configured,
ret = pktdump_runpipeline(pps); then ret = pktdump_finish(pps), overwriting
the run result; exit_tcpdump(ret).  With no source, ret is never assigned
(uninitialized local), modelled as none. -/
def mainExitStatus {σ : Type} [Inhabited σ]
    (pps : Option (PktPipelineSource σ)) (heap : CaptureHeap)
    (frames : List (PcapPkthdr × List Nat)) : Option Int :=
  match pps with
  | some s =>
      let run := pktdump_runpipeline s frames
      some (pktdump_finish (some run.1) heap).2
  | none => none

/-!  Helper lemmas about the stage loop. -/

theorem stageStep_isSome {σ : Type} [Inhabited σ] (dlt : Int)
    (stages : List (PktPipelineInstance σ)) (ppl : PktPipelineList) (i : Nat) :
    (stageStep dlt stages ppl i).isSome = hasProcessOp stages i := by
  cases hst : (stages.getD i (zeroInstance σ)).pi_stage with
  | none => simp only [stageStep, hasProcessOp, hst, Option.isSome_none]
  | some st =>
      cases hpr : st.pp_process with
      | none => simp only [stageStep, hasProcessOp, hst, hpr, Option.isSome_none]
      | some f => simp only [stageStep, hasProcessOp, hst, hpr, Option.isSome_some]

theorem stageStep_eq_none {σ : Type} [Inhabited σ] (dlt : Int)
    (stages : List (PktPipelineInstance σ)) (ppl : PktPipelineList) (i : Nat)
    (h : hasProcessOp stages i = false) : stageStep dlt stages ppl i = none := by
  have hs := stageStep_isSome dlt stages ppl i
  rw [h] at hs
  exact Option.not_isSome_iff_eq_none.mp (by simp [hs])

theorem stageLoop_nil {σ : Type} [Inhabited σ] (dlt : Int)
    (stages : List (PktPipelineInstance σ)) (ppl : PktPipelineList) :
    stageLoop dlt stages ppl [] = (stages, ppl, []) := rfl

theorem stageLoop_cons_skip {σ : Type} [Inhabited σ] (dlt : Int)
    (stages : List (PktPipelineInstance σ)) (ppl : PktPipelineList)
    (i : Nat) (rest : List Nat) (h : stageStep dlt stages ppl i = none) :
    stageLoop dlt stages ppl (i :: rest) = stageLoop dlt stages ppl rest := by
  simp [stageLoop, h]

theorem stageLoop_cons_break {σ : Type} [Inhabited σ] (dlt : Int)
    (stages stages1 : List (PktPipelineInstance σ)) (ppl ppl1 : PktPipelineList)
    (i : Nat) (rest : List Nat) (ret : Int)
    (h : stageStep dlt stages ppl i = some (stages1, ppl1, ret)) (hr : ret ≠ 0) :
    stageLoop dlt stages ppl (i :: rest) = (stages1, ppl1, [i]) := by
  simp [stageLoop, h, hr]

theorem stageLoop_cons_cont {σ : Type} [Inhabited σ] (dlt : Int)
    (stages stages1 : List (PktPipelineInstance σ)) (ppl ppl1 : PktPipelineList)
    (i : Nat) (rest : List Nat)
    (h : stageStep dlt stages ppl i = some (stages1, ppl1, 0)) :
    stageLoop dlt stages ppl (i :: rest) =
      ((stageLoop dlt stages1 ppl1 rest).1, (stageLoop dlt stages1 ppl1 rest).2.1,
        i :: (stageLoop dlt stages1 ppl1 rest).2.2) := by
  simp [stageLoop, h]

theorem stageLoop_trace_sublist {σ : Type} [Inhabited σ] (dlt : Int) :
    ∀ (idxs : List Nat) (stages : List (PktPipelineInstance σ)) (ppl : PktPipelineList),
      List.Sublist (stageLoop dlt stages ppl idxs).2.2 idxs := by
  intro idxs
  induction idxs with
  | nil => intro stages ppl; simp [stageLoop_nil]
  | cons i rest ih =>
      intro stages ppl
      cases hstep : stageStep dlt stages ppl i with
      | none =>
          rw [stageLoop_cons_skip dlt stages ppl i rest hstep]
          exact List.Sublist.cons i (ih stages ppl)
      | some t =>
          obtain ⟨stages1, ppl1, ret⟩ := t
          by_cases hr : ret = 0
          · subst hr
            rw [stageLoop_cons_cont dlt stages stages1 ppl ppl1 i rest hstep]
            exact List.Sublist.cons₂ i (ih stages1 ppl1)
          · rw [stageLoop_cons_break dlt stages stages1 ppl ppl1 i rest ret hstep hr]
            exact List.Sublist.cons₂ i (List.nil_sublist rest)

theorem hasProcessOp_set_info {σ : Type} [Inhabited σ]
    (stages : List (PktPipelineInstance σ)) (i j : Nat) (v : PktPipelineInstance σ)
    (hv : v.pi_stage = (stages.getD i (zeroInstance σ)).pi_stage) :
    hasProcessOp (stages.set i v) j = hasProcessOp stages j := by
  unfold hasProcessOp
  by_cases hij : i = j
  · subst hij
    by_cases hi : i < stages.length
    · have : (stages.set i v).getD i (zeroInstance σ) = v := by
        simp [List.getD_eq_getElem?_getD, List.getElem?_set_self, hi]
      rw [this, hv]
    · rw [List.set_eq_of_length_le (Nat.le_of_not_lt hi)]
  · have : (stages.set i v).getD j (zeroInstance σ) = stages.getD j (zeroInstance σ) := by
      simp [List.getD_eq_getElem?_getD, List.getElem?_set_ne hij]
    rw [this]

theorem stageStep_preserves_hasProcessOp {σ : Type} [Inhabited σ] (dlt : Int)
    (stages stages1 : List (PktPipelineInstance σ)) (ppl ppl1 : PktPipelineList)
    (i : Nat) (ret : Int)
    (h : stageStep dlt stages ppl i = some (stages1, ppl1, ret)) :
    ∀ j, hasProcessOp stages1 j = hasProcessOp stages j := by
  intro j
  unfold stageStep at h
  cases hst : (stages.getD i (zeroInstance σ)).pi_stage with
  | none =>
      simp only [hst] at h
      exact Option.noConfusion h
  | some st =>
      cases hpr : st.pp_process with
      | none =>
          simp only [hst, hpr] at h
          exact Option.noConfusion h
      | some f =>
          simp only [hst, hpr] at h
          cases h
          exact hasProcessOp_set_info stages i j _ (by rw [hst])

theorem stageLoop_preserves_hasProcessOp {σ : Type} [Inhabited σ] (dlt : Int) :
    ∀ (idxs : List Nat) (stages : List (PktPipelineInstance σ)) (ppl : PktPipelineList) (j : Nat),
      hasProcessOp (stageLoop dlt stages ppl idxs).1 j = hasProcessOp stages j := by
  intro idxs
  induction idxs with
  | nil => intro stages ppl j; rfl
  | cons i rest ih =>
      intro stages ppl j
      cases hstep : stageStep dlt stages ppl i with
      | none =>
          rw [stageLoop_cons_skip dlt stages ppl i rest hstep]
          exact ih stages ppl j
      | some t =>
          obtain ⟨stages1, ppl1, ret⟩ := t
          have hpres := stageStep_preserves_hasProcessOp dlt stages stages1 ppl ppl1 i ret hstep
          by_cases hr : ret = 0
          · subst hr
            rw [stageLoop_cons_cont dlt stages stages1 ppl ppl1 i rest hstep]
            rw [ih stages1 ppl1 j]
            exact hpres j
          · rw [stageLoop_cons_break dlt stages stages1 ppl ppl1 i rest ret hstep hr]
            exact hpres j

theorem stageLoop_trace_head {σ : Type} [Inhabited σ] (dlt : Int) :
    ∀ (idxs : List Nat) (stages : List (PktPipelineInstance σ)) (ppl : PktPipelineList),
      (stageLoop dlt stages ppl idxs).2.2.head? =
        idxs.find? (fun i => hasProcessOp stages i) := by
  intro idxs
  induction idxs with
  | nil => intro stages ppl; rfl
  | cons i rest ih =>
      intro stages ppl
      cases hstep : stageStep dlt stages ppl i with
      | none =>
          have hop : hasProcessOp stages i = false := by
            have hs := stageStep_isSome dlt stages ppl i
            rw [hstep] at hs
            exact hs.symm
          rw [stageLoop_cons_skip dlt stages ppl i rest hstep,
            List.find?_cons_of_neg _ (by simp [hop]), ih stages ppl]
      | some t =>
          obtain ⟨stages1, ppl1, ret⟩ := t
          have hop : hasProcessOp stages i = true := by
            have hs := stageStep_isSome dlt stages ppl i
            rw [hstep] at hs
            exact hs.symm
          rw [List.find?_cons_of_pos _ (by simp [hop])]
          by_cases hr : ret = 0
          · subst hr
            rw [stageLoop_cons_cont dlt stages stages1 ppl ppl1 i rest hstep]
            rfl
          · rw [stageLoop_cons_break dlt stages stages1 ppl ppl1 i rest ret hstep hr]
            rfl

theorem find?_congrPred {α : Type} (p q : α → Bool) :
    ∀ l : List α, (∀ a ∈ l, p a = q a) → l.find? p = l.find? q := by
  intro l
  induction l with
  | nil => intro _; rfl
  | cons a t ih =>
      intro h
      have ha := h a (by simp)
      simp only [List.find?]
      rw [ha]
      cases hq : q a with
      | true => rfl
      | false => exact ih (fun b hb => h b (by simp [hb]))

theorem processOne_invoked_head {σ : Type} [Inhabited σ]
    (pps : PktPipelineSource σ) (h : PcapPkthdr) (bytes : List Nat) :
    (pktdump_process_one pps h bytes).invoked.head? = firstInvokable pps.ps_pipeline := by
  unfold pktdump_process_one firstInvokable
  simp only
  exact stageLoop_trace_head _ _ _ _

theorem processOne_preserves_firstInvokable {σ : Type} [Inhabited σ]
    (pps : PktPipelineSource σ) (h : PcapPkthdr) (bytes : List Nat) :
    firstInvokable (pktdump_process_one pps h bytes).pps.ps_pipeline =
      firstInvokable pps.ps_pipeline := by
  unfold firstInvokable pktdump_process_one
  simp only
  exact find?_congrPred _ _ _
    (fun a _ => stageLoop_preserves_hasProcessOp _ _ _ _ a)

/-!  Helper lemmas about registration. -/

theorem pipeline_add_spec {σ : Type} [Inhabited σ]
    (pps : PktPipelineSource σ) (ps : PktPipelineStage σ)
    (hlt : pps.ps_pipeline.pkt_stage_next < PKT_PIPELINE_MAX)
    (hlen : pps.ps_pipeline.pkt_stages.length = PKT_PIPELINE_MAX) :
    (pktdump_pipeline_add pps ps).1.ps_pipeline.pkt_stage_next =
        pps.ps_pipeline.pkt_stage_next + 1 ∧
    (pktdump_pipeline_add pps ps).1.ps_pipeline.pkt_stages.length = PKT_PIPELINE_MAX ∧
    (∃ inst : PktPipelineInstance σ,
      (pktdump_pipeline_add pps ps).2 = some inst ∧
      inst.pi_stage_num = pps.ps_pipeline.pkt_stage_next ∧
      inst.pi_stage = some ps ∧
      (pktdump_pipeline_add pps ps).1.ps_pipeline.pkt_stages.getD
        pps.ps_pipeline.pkt_stage_next (zeroInstance σ) = inst) ∧
    (∀ j, j ≠ pps.ps_pipeline.pkt_stage_next →
      (pktdump_pipeline_add pps ps).1.ps_pipeline.pkt_stages.getD j (zeroInstance σ) =
        pps.ps_pipeline.pkt_stages.getD j (zeroInstance σ)) := by
  have hcond : ¬ (pps.ps_pipeline.pkt_stage_next ≥ PKT_PIPELINE_MAX) := by omega
  have hidx : pps.ps_pipeline.pkt_stage_next < pps.ps_pipeline.pkt_stages.length := by
    omega
  cases hinit : ps.pp_init with
  | none =>
      have hadd : pktdump_pipeline_add pps ps =
          ({ ps_pipeline :=
              { pkt_datalink := pps.ps_pipeline.pkt_datalink
                pkt_stage_next := pps.ps_pipeline.pkt_stage_next + 1
                pkt_stages := pps.ps_pipeline.pkt_stages.set pps.ps_pipeline.pkt_stage_next
                  { pi_stage := some ps
                    pi_stage_info := (pps.ps_pipeline.pkt_stages.getD
                      pps.ps_pipeline.pkt_stage_next (zeroInstance σ)).pi_stage_info
                    pi_stage_num := pps.ps_pipeline.pkt_stage_next } } },
           some { pi_stage := some ps
                  pi_stage_info := (pps.ps_pipeline.pkt_stages.getD
                    pps.ps_pipeline.pkt_stage_next (zeroInstance σ)).pi_stage_info
                  pi_stage_num := pps.ps_pipeline.pkt_stage_next }) := by
        simp only [pktdump_pipeline_add, hinit, if_neg hcond]
      rw [hadd]
      refine ⟨rfl, by simp [hlen], ⟨_, rfl, rfl, rfl, ?_⟩, ?_⟩
      · simp [List.getD_eq_getElem?_getD, List.getElem?_set_self, hidx]
      · intro j hj
        simp [List.getD_eq_getElem?_getD, List.getElem?_set_ne (fun he => hj he.symm)]
  | some fInit =>
      have hadd : pktdump_pipeline_add pps ps =
          ({ ps_pipeline :=
              { pkt_datalink := pps.ps_pipeline.pkt_datalink
                pkt_stage_next := pps.ps_pipeline.pkt_stage_next + 1
                pkt_stages := pps.ps_pipeline.pkt_stages.set pps.ps_pipeline.pkt_stage_next
                  { pi_stage := some ps
                    pi_stage_info := (fInit pps.ps_pipeline.pkt_datalink
                      pps.ps_pipeline.pkt_stage_next
                      (pps.ps_pipeline.pkt_stages.getD
                        pps.ps_pipeline.pkt_stage_next (zeroInstance σ)).pi_stage_info).1
                    pi_stage_num := pps.ps_pipeline.pkt_stage_next } } },
           some { pi_stage := some ps
                  pi_stage_info := (fInit pps.ps_pipeline.pkt_datalink
                    pps.ps_pipeline.pkt_stage_next
                    (pps.ps_pipeline.pkt_stages.getD
                      pps.ps_pipeline.pkt_stage_next (zeroInstance σ)).pi_stage_info).1
                  pi_stage_num := pps.ps_pipeline.pkt_stage_next }) := by
        simp only [pktdump_pipeline_add, hinit, if_neg hcond]
      rw [hadd]
      refine ⟨rfl, by simp [hlen], ⟨_, rfl, rfl, rfl, ?_⟩, ?_⟩
      · simp [List.getD_eq_getElem?_getD, List.getElem?_set_self, hidx]
      · intro j hj
        simp [List.getD_eq_getElem?_getD, List.getElem?_set_ne (fun he => hj he.symm)]

theorem registerAll_cons {σ : Type} [Inhabited σ]
    (pps : PktPipelineSource σ) (d : PktPipelineStage σ) (ds : List (PktPipelineStage σ)) :
    registerAll pps (d :: ds) =
      ((registerAll (pktdump_pipeline_add pps d).1 ds).1,
       (pktdump_pipeline_add pps d).2 :: (registerAll (pktdump_pipeline_add pps d).1 ds).2) :=
  rfl

theorem registerAll_preserves_lower {σ : Type} [Inhabited σ] :
    ∀ (descs : List (PktPipelineStage σ)) (pps : PktPipelineSource σ) (j : Nat),
      j < pps.ps_pipeline.pkt_stage_next →
      pps.ps_pipeline.pkt_stage_next + descs.length ≤ PKT_PIPELINE_MAX →
      pps.ps_pipeline.pkt_stages.length = PKT_PIPELINE_MAX →
      (registerAll pps descs).1.ps_pipeline.pkt_stages.getD j (zeroInstance σ) =
        pps.ps_pipeline.pkt_stages.getD j (zeroInstance σ) := by
  intro descs
  induction descs with
  | nil => intro pps j _ _ _; rfl
  | cons d ds ih =>
      intro pps j hj hcap hlen
      have hlt : pps.ps_pipeline.pkt_stage_next < PKT_PIPELINE_MAX := by
        simp only [List.length_cons] at hcap
        omega
      obtain ⟨hnext1, hlen1, _, hlower⟩ := pipeline_add_spec pps d hlt hlen
      rw [registerAll_cons]
      have hstep := ih (pktdump_pipeline_add pps d).1 j (by omega)
        (by rw [hnext1]; simp only [List.length_cons] at hcap; omega) hlen1
      simp only at hstep
      rw [hstep]
      exact hlower j (by omega)

/-- The all-NULL stage record, used as a List.getD default. -/
def nullStage (σ : Type) : PktPipelineStage σ :=
  { pp_name := "", pp_init := none, pp_process := none }

theorem registerAll_spec {σ : Type} [Inhabited σ] :
    ∀ (descs : List (PktPipelineStage σ)) (pps : PktPipelineSource σ),
      pps.ps_pipeline.pkt_stages.length = PKT_PIPELINE_MAX →
      pps.ps_pipeline.pkt_stage_next + descs.length ≤ PKT_PIPELINE_MAX →
      (registerAll pps descs).1.ps_pipeline.pkt_stage_next =
          pps.ps_pipeline.pkt_stage_next + descs.length ∧
      (registerAll pps descs).1.ps_pipeline.pkt_stages.length = PKT_PIPELINE_MAX ∧
      (registerAll pps descs).2.length = descs.length ∧
      (∀ k, k < descs.length →
        ∃ inst : PktPipelineInstance σ,
          (registerAll pps descs).2.getD k none = some inst ∧
          inst.pi_stage_num = pps.ps_pipeline.pkt_stage_next + k ∧
          inst.pi_stage = some (descs.getD k (nullStage σ))) ∧
      (∀ k, k < descs.length →
        ((registerAll pps descs).1.ps_pipeline.pkt_stages.getD
            (pps.ps_pipeline.pkt_stage_next + k) (zeroInstance σ)).pi_stage_num =
          pps.ps_pipeline.pkt_stage_next + k ∧
        ((registerAll pps descs).1.ps_pipeline.pkt_stages.getD
            (pps.ps_pipeline.pkt_stage_next + k) (zeroInstance σ)).pi_stage =
          some (descs.getD k (nullStage σ))) := by
  intro descs
  induction descs with
  | nil =>
      intro pps hlen _
      refine ⟨rfl, hlen, rfl, ?_, ?_⟩
      · intro k hk; cases hk
      · intro k hk; cases hk
  | cons d ds ih =>
      intro pps hlen hcap
      simp only [List.length_cons] at hcap
      have hlt : pps.ps_pipeline.pkt_stage_next < PKT_PIPELINE_MAX := by omega
      obtain ⟨hnext1, hlen1, ⟨inst, hinst, hnum, hstage, hslot⟩, hlower⟩ :=
        pipeline_add_spec pps d hlt hlen
      have hcap1 : (pktdump_pipeline_add pps d).1.ps_pipeline.pkt_stage_next + ds.length ≤
          PKT_PIPELINE_MAX := by rw [hnext1]; omega
      obtain ⟨ihA, ihB, ihC, ihD, ihE⟩ := ih (pktdump_pipeline_add pps d).1 hlen1 hcap1
      rw [registerAll_cons]
      refine ⟨?_, ihB, ?_, ?_, ?_⟩
      · simp only
        rw [ihA, hnext1]
        simp [Nat.add_assoc, Nat.add_comm 1 ds.length]
      · simp [ihC]
      · intro k hk
        cases k with
        | zero =>
            refine ⟨inst, ?_, ?_, ?_⟩
            · simp [hinst]
            · simpa using hnum
            · simpa using hstage
        | succ m =>
            have hm : m < ds.length := by simpa [Nat.succ_lt_succ_iff] using hk
            obtain ⟨inst2, hres, hnum2, hstage2⟩ := ihD m hm
            refine ⟨inst2, ?_, ?_, ?_⟩
            · simpa using hres
            · rw [hnum2, hnext1]; omega
            · simpa using hstage2
      · intro k hk
        cases k with
        | zero =>
            have hpres := registerAll_preserves_lower ds (pktdump_pipeline_add pps d).1
              pps.ps_pipeline.pkt_stage_next (by omega) hcap1 hlen1
            simp only at hpres
            simp only [Nat.add_zero]
            rw [hpres, hslot]
            exact ⟨hnum, by simpa using hstage⟩
        | succ m =>
            have hm : m < ds.length := by simpa [Nat.succ_lt_succ_iff] using hk
            have heq : (pktdump_pipeline_add pps d).1.ps_pipeline.pkt_stage_next + m =
                pps.ps_pipeline.pkt_stage_next + (m + 1) := by rw [hnext1]; omega
            obtain ⟨he1, he2⟩ := ihE m hm
            rw [heq] at he1 he2
            exact ⟨he1, by simpa using he2⟩

/-!  Concrete inputs used by witnesses and counterexamples. -/

/-- The frame metadata of spec section 8: captured length 64, original length
128, timestamp (10, 500). -/
def demoPkthdr : PcapPkthdr :=
  { ts_sec := 10, ts_usec := 500, caplen := 64, len := 128 }

/-- 64 distinct payload bytes for the demo frame. -/
def demoBytes : List Nat := List.range 64

/-- A stage with no process operation. -/
def demoNoProcStage : PktPipelineStage Int :=
  { pp_name := "noproc", pp_init := none, pp_process := none }

/-- A process operation that increments its private counter and reports the
non-zero code 7. -/
def demoFailProc : Int → Nat → Int → PktPipelineList → Int × PktPipelineList × Int :=
  fun _ _ s ppl => (s + 1, ppl, 7)

/-- A stage whose process operation always fails with code 7. -/
def demoFailProcStage : PktPipelineStage Int :=
  { pp_name := "failproc", pp_init := none, pp_process := some demoFailProc }

/-- A stage whose init reports failure with -2, exactly as pkt_hexdumpc_init
(src/pkt_dumpc.c lines 52-59) does when its allocation fails, and whose
process operation succeeds. -/
def failInitStage : PktPipelineStage Int :=
  { pp_name := "failinit"
    pp_init := some (fun _ _ s => (s, -2))
    pp_process := some (fun _ _ s ppl => (s, ppl, 0)) }

/-- A one-instance stage array holding only the no-process stage. -/
def demoStagesSkip : List (PktPipelineInstance Int) :=
  [{ pi_stage := some demoNoProcStage, pi_stage_info := 0, pi_stage_num := 0 }]

/-- A one-instance stage array holding only the failing-process stage. -/
def demoStagesFail : List (PktPipelineInstance Int) :=
  [{ pi_stage := some demoFailProcStage, pi_stage_info := 0, pi_stage_num := 0 }]

/-- A one-entry packet list around the demo frame. -/
def demoPpl : PktPipelineList :=
  { pkt_list := [some { pkt_pipeline_hdr := mkTPacketHdr demoPkthdr }], pkt_extent := 1 }

/-- A source with the failing-process stage registered at index 0. -/
def demoFailSource : PktPipelineSource Int :=
  (pktdump_pipeline_add (mkInitialSource Int 1) demoFailProcStage).1

/-- Two demo stage descriptors to register in order. -/
def demoDescs : List (PktPipelineStage Int) := [demoNoProcStage, demoFailProcStage]

/-- A source with the registry filled to capacity (8 registrations). -/
def demoFullSource : PktPipelineSource Int :=
  (registerAll (mkInitialSource Int 1) (List.replicate PKT_PIPELINE_MAX demoNoProcStage)).1

/-!  Claim theorems. -/

/-- C2: registering n ≤ PKT_PIPELINE_MAX stages into a fresh source assigns
the indices 0..n-1 in registration order, both on the returned instances and
in the registry slots (so no index is ever reused); and one further
registration against a full registry returns NULL and leaves the source —
stage count and every registered instance — exactly unchanged. -/
theorem pipeline_registration_contract {σ : Type} [Inhabited σ] :
    (∀ (dlt : Int) (descs : List (PktPipelineStage σ)),
       descs.length ≤ PKT_PIPELINE_MAX →
       (registerAll (mkInitialSource σ dlt) descs).1.ps_pipeline.pkt_stage_next =
           descs.length ∧
       (registerAll (mkInitialSource σ dlt) descs).2.length = descs.length ∧
       (∀ k, k < descs.length →
         ∃ inst : PktPipelineInstance σ,
           (registerAll (mkInitialSource σ dlt) descs).2.getD k none = some inst ∧
           inst.pi_stage_num = k ∧
           inst.pi_stage = some (descs.getD k (nullStage σ))) ∧
       (∀ k, k < descs.length →
         ((registerAll (mkInitialSource σ dlt) descs).1.ps_pipeline.pkt_stages.getD k
             (zeroInstance σ)).pi_stage_num = k ∧
         ((registerAll (mkInitialSource σ dlt) descs).1.ps_pipeline.pkt_stages.getD k
             (zeroInstance σ)).pi_stage = some (descs.getD k (nullStage σ)))) ∧
    (∀ (pps : PktPipelineSource σ) (d : PktPipelineStage σ),
       pps.ps_pipeline.pkt_stage_next = PKT_PIPELINE_MAX →
       pktdump_pipeline_add pps d = (pps, none)) := by
  constructor
  · intro dlt descs hcap
    have hlen : (mkInitialSource σ dlt).ps_pipeline.pkt_stages.length = PKT_PIPELINE_MAX := by
      simp [mkInitialSource]
    have hcap0 : (mkInitialSource σ dlt).ps_pipeline.pkt_stage_next + descs.length ≤
        PKT_PIPELINE_MAX := by simpa [mkInitialSource] using hcap
    obtain ⟨hA, _, hC, hD, hE⟩ := registerAll_spec descs (mkInitialSource σ dlt) hlen hcap0
    refine ⟨by simpa [mkInitialSource] using hA, hC, ?_, ?_⟩
    · intro k hk
      obtain ⟨inst, h1, h2, h3⟩ := hD k hk
      exact ⟨inst, h1, by simpa [mkInitialSource] using h2, h3⟩
    · intro k hk
      have := hE k hk
      simpa [mkInitialSource] using this
  · intro pps d hfull
    have hcond : pps.ps_pipeline.pkt_stage_next ≥ PKT_PIPELINE_MAX := by omega
    simp [pktdump_pipeline_add, hcond]

/-- Witness for C2: registering two stages yields count 2 with the second
instance at index 1 holding the second descriptor, and a ninth registration
against the full registry returns null leaving the source unchanged. -/
theorem pipeline_registration_contract_witness :
    (registerAll (mkInitialSource Int 1) demoDescs).1.ps_pipeline.pkt_stage_next =
        demoDescs.length ∧
    (∃ inst : PktPipelineInstance Int,
      (registerAll (mkInitialSource Int 1) demoDescs).2.getD 1 none = some inst ∧
      inst.pi_stage_num = 1 ∧
      inst.pi_stage = some (demoDescs.getD 1 (nullStage Int))) ∧
    pktdump_pipeline_add demoFullSource demoNoProcStage = (demoFullSource, none) := by
  refine ⟨((pipeline_registration_contract (σ := Int)).1 1 demoDescs (by decide)).1,
    ((pipeline_registration_contract (σ := Int)).1 1 demoDescs (by decide)).2.2.1 1
      (by decide), ?_⟩
  exact (pipeline_registration_contract (σ := Int)).2 demoFullSource demoNoProcStage
    (by decide)

/-- C7: every descriptor built by pktdump_process_one satisfies the
PacketBuffer invariant offset + captured_length ≤ buffer_capacity: the
payload offset is fixed at 2048, buffer1 holds 65536+2048 bytes, and the
stored captured length never exceeds 65536 whatever caplen the native
metadata reports. -/
theorem packet_buffer_capacity_invariant :
    ∀ h : PcapPkthdr,
      (mkTPacketHdr h).tp_snaplen ≤ 65536 ∧
      (mkTPacketHdr h).tp_mac + (mkTPacketHdr h).tp_snaplen ≤ BUFFER1_SIZE := by
  intro h
  unfold mkTPacketHdr clampCaplen BUFFER1_SIZE
  by_cases hc : h.caplen > 65536
  · simp [hc]
  · simp [hc]
    omega

/-- Counterexample for C6 as stated: a frame whose native captured length is
70000 gets the clamped value 65536 stored, not the native value, so
descriptor construction does not populate the captured length unchanged for
every captured frame. -/
theorem construction_clamps_large_caplen :
    (mkTPacketHdr { ts_sec := 10, ts_usec := 500, caplen := 70000, len := 70000 }).tp_snaplen
      = 65536 ∧
    (mkTPacketHdr { ts_sec := 10, ts_usec := 500, caplen := 70000, len := 70000 }).tp_snaplen
      ≠ ({ ts_sec := 10, ts_usec := 500, caplen := 70000, len := 70000 } : PcapPkthdr).caplen := by
  exact ⟨rfl, by decide⟩

/-- C6 (amended): for every captured frame, descriptor construction copies
the timestamp, original length and payload offset through unchanged and
stores the captured length clamped to the 65536 snaplen bound — equal to the
native value exactly when that value is at most 65536 — and the buffer
exposes exactly the byte range [offset, offset + stored captured length);
in particular the (captured_length=64, original_length=128, offset=2048,
timestamp=(10, 500)) frame yields tp_snaplen 64, tp_len 128, tp_mac 2048
and timestamp (10, 500). -/
theorem packet_buffer_construction :
    (∀ (h : PcapPkthdr) (bytes : List Nat),
      (mkTPacketHdr h).tp_sec = h.ts_sec ∧
      (mkTPacketHdr h).tp_nsec = h.ts_usec ∧
      (mkTPacketHdr h).tp_len = h.len ∧
      (mkTPacketHdr h).tp_mac = 2048 ∧
      (mkTPacketHdr h).tp_snaplen = min h.caplen 65536 ∧
      ((mkTPacketHdr h).tp_snaplen = h.caplen ↔ h.caplen ≤ 65536) ∧
      (∀ a : Nat, (frameBuffer h bytes a).isSome = true ↔
        2048 ≤ a ∧ a < 2048 + (mkTPacketHdr h).tp_snaplen) ∧
      (∀ i : Nat, i < (mkTPacketHdr h).tp_snaplen →
        frameBuffer h bytes (2048 + i) = some (bytes.getD i 0))) ∧
    (mkTPacketHdr demoPkthdr).tp_sec = 10 ∧
    (mkTPacketHdr demoPkthdr).tp_nsec = 500 ∧
    (mkTPacketHdr demoPkthdr).tp_snaplen = 64 ∧
    (mkTPacketHdr demoPkthdr).tp_len = 128 ∧
    (mkTPacketHdr demoPkthdr).tp_mac = 2048 := by
  refine ⟨?_, rfl, rfl, by decide, rfl, rfl⟩
  intro h bytes
  refine ⟨rfl, rfl, rfl, rfl, ?_, ?_, ?_, ?_⟩
  · simp only [mkTPacketHdr, clampCaplen]
    rw [Nat.min_def]
    split <;> split <;> omega
  · simp only [mkTPacketHdr, clampCaplen]
    by_cases hc : h.caplen > 65536
    · simp only [if_pos hc]
      constructor
      · intro he; omega
      · intro he; omega
    · simp [hc]
      omega
  · intro a
    by_cases hc2 : 2048 ≤ a ∧ a < 2048 + clampCaplen h.caplen <;>
      simp [frameBuffer, mkTPacketHdr, hc2]
  · intro i hi
    simp only [mkTPacketHdr] at hi
    have hc2 : 2048 ≤ 2048 + i ∧ 2048 + i < 2048 + clampCaplen h.caplen := by omega
    simp [frameBuffer, hc2, Nat.add_sub_cancel_left]

/-- C3 (code bug): pktdump_pipeline_add discards the init return code.
Registering a stage whose init reports -2 still returns a usable instance,
still counts the stage in the registry, and the stage is still invoked by
the next dispatch cycle. -/
theorem init_failure_not_fatal :
    (pktdump_pipeline_add (mkInitialSource Int 1) failInitStage).2.isSome = true ∧
    (pktdump_pipeline_add (mkInitialSource Int 1) failInitStage).1.ps_pipeline.pkt_stage_next
      = 1 ∧
    (pktdump_process_one (pktdump_pipeline_add (mkInitialSource Int 1) failInitStage).1
        demoPkthdr demoBytes).invoked = [0] := by
  refine ⟨rfl, rfl, rfl⟩

/-- Counterexample for C8 as stated: closing an open source does not release
the capture handle (pktdump_finish never calls pcap_close). -/
theorem close_does_not_release_capture_handle :
    (pktdump_finish (some (mkInitialSource Unit 1))
        { sourceAllocated := true, pcapHandleOpen := true }).1.pcapHandleOpen = true := rfl

/-- C8 (amended): close releases the PipelineSource allocation but leaves the
capture handle exactly as it was; close with a null source is a no-op that
still returns 1; and once the caller has nulled its pointer (as main does), a
second close has no further effect. -/
theorem close_releases_source_only :
    ∀ (heap : CaptureHeap) (s : PktPipelineSource Unit),
      (pktdump_finish (some s) heap).1.sourceAllocated = false ∧
      (pktdump_finish (some s) heap).1.pcapHandleOpen = heap.pcapHandleOpen ∧
      pktdump_finish (σ := Unit) none heap = (heap, 1) ∧
      pktdump_finish (σ := Unit) none (pktdump_finish (some s) heap).1 =
        ((pktdump_finish (some s) heap).1, 1) := by
  intro heap s
  exact ⟨rfl, rfl, rfl, rfl⟩

/-- C9 (code bug): on the two handled paths, open behaves as claimed (pcap
open failure yields a null result with a diagnostic; success records the
datalink type), but when the source allocation itself fails the code
dereferences the null allocator result instead of returning null. -/
theorem inputsource_alloc_failure_is_null_deref :
    (∀ pcapReader : Option Int,
       pktdump_inputsource Unit false pcapReader = OpenOutcome.nullDeref) ∧
    pktdump_inputsource Unit true none = OpenOutcome.nullResult true ∧
    (∀ dlt : Int,
       pktdump_inputsource Unit true (some dlt) = OpenOutcome.ok (mkInitialSource Unit dlt) ∧
       (mkInitialSource Unit dlt).ps_pipeline.pkt_datalink = dlt) :=
  ⟨fun _ => rfl, rfl, fun _ => ⟨rfl, rfl⟩⟩

/-- C10: pktdump_finish returns 1 for every argument, null sources included;
main stores that value into ret after the run and exits with it, so a run
with a configured source reports exit status 1 even when everything
succeeded. -/
theorem finish_returns_one_exit_status_one :
    (∀ (pps : Option (PktPipelineSource Unit)) (heap : CaptureHeap),
       (pktdump_finish pps heap).2 = 1) ∧
    (∀ (s : PktPipelineSource Unit) (heap : CaptureHeap)
       (frames : List (PcapPkthdr × List Nat)),
       mainExitStatus (some s) heap frames = some 1) := by
  constructor
  · intro pps heap
    cases pps <;> rfl
  · intro s heap frames
    rfl

/-- C1: the engine runs one batch through the registered stages strictly in
registration order (the invoked indices form a sublist of 0, 1, 2, ...); a
stage slot without a process operation is skipped without stopping
execution; and when the stage at index k returns a non-zero code, the loop
stops with exactly the state the stages 0..k produced — the k-th stage's
private-state and packet-list mutations persist and no later index is
invoked. -/
theorem stage_execution_engine_contract {σ : Type} [Inhabited σ] :
    (∀ (pps : PktPipelineSource σ) (h : PcapPkthdr) (bytes : List Nat),
       List.Sublist (pktdump_process_one pps h bytes).invoked
         (List.range (min pps.ps_pipeline.pkt_stage_next PKT_PIPELINE_MAX))) ∧
    (∀ (dlt : Int) (stages : List (PktPipelineInstance σ)) (ppl : PktPipelineList)
       (i : Nat) (rest : List Nat),
       hasProcessOp stages i = false →
       stageLoop dlt stages ppl (i :: rest) = stageLoop dlt stages ppl rest) ∧
    (∀ (dlt : Int) (stages : List (PktPipelineInstance σ)) (ppl : PktPipelineList)
       (k : Nat) (rest : List Nat) (st : PktPipelineStage σ)
       (f : Int → Nat → σ → PktPipelineList → σ × PktPipelineList × Int),
       (stages.getD k (zeroInstance σ)).pi_stage = some st →
       st.pp_process = some f →
       (f dlt (stages.getD k (zeroInstance σ)).pi_stage_num
          (stages.getD k (zeroInstance σ)).pi_stage_info ppl).2.2 ≠ 0 →
       stageLoop dlt stages ppl (k :: rest) =
         (stages.set k
            { stages.getD k (zeroInstance σ) with
              pi_stage_info :=
                (f dlt (stages.getD k (zeroInstance σ)).pi_stage_num
                   (stages.getD k (zeroInstance σ)).pi_stage_info ppl).1 },
          (f dlt (stages.getD k (zeroInstance σ)).pi_stage_num
             (stages.getD k (zeroInstance σ)).pi_stage_info ppl).2.1,
          [k])) := by
  refine ⟨?_, ?_, ?_⟩
  · intro pps h bytes
    exact stageLoop_trace_sublist _ _ _ _
  · intro dlt stages ppl i rest hop
    exact stageLoop_cons_skip dlt stages ppl i rest (stageStep_eq_none dlt stages ppl i hop)
  · intro dlt stages ppl k rest st f hst hpr hr
    have hstep : stageStep dlt stages ppl k =
        some (stages.set k
            { stages.getD k (zeroInstance σ) with
              pi_stage_info :=
                (f dlt (stages.getD k (zeroInstance σ)).pi_stage_num
                   (stages.getD k (zeroInstance σ)).pi_stage_info ppl).1 },
          (f dlt (stages.getD k (zeroInstance σ)).pi_stage_num
             (stages.getD k (zeroInstance σ)).pi_stage_info ppl).2.1,
          (f dlt (stages.getD k (zeroInstance σ)).pi_stage_num
             (stages.getD k (zeroInstance σ)).pi_stage_info ppl).2.2) := by
      simp only [stageStep, hst, hpr]
    exact stageLoop_cons_break dlt stages _ ppl _ k rest _ hstep hr

/-- Witness for C1: skipping a process-less stage at index 0 continues with
index 1, and a stage returning 7 at index 0 stops the loop with its
mutations in place. -/
theorem stage_execution_engine_contract_witness :
    stageLoop (σ := Int) 1 demoStagesSkip demoPpl [0, 1] =
      stageLoop 1 demoStagesSkip demoPpl [1] ∧
    stageLoop (σ := Int) 1 demoStagesFail demoPpl [0, 1] =
      (demoStagesFail.set 0
         { pi_stage := some demoFailProcStage, pi_stage_info := 1, pi_stage_num := 0 },
       demoPpl, [0]) := by
  constructor
  · exact (stage_execution_engine_contract (σ := Int)).2.1 1 demoStagesSkip demoPpl 0 [1]
      (by decide)
  · have h := (stage_execution_engine_contract (σ := Int)).2.2 1 demoStagesFail demoPpl 0 [1]
      demoFailProcStage demoFailProc rfl rfl (by decide)
    exact h

/-- C4: when the stage loop finishes, normally or by an early non-zero
break, every descriptor entry still present in the batch is among the
entries whose storage the cycle hands back for reuse when the callback
returns (buffer1, pkt0 and pkt1 are automatic storage reclaimed at function
exit, before the next frame is dispatched). -/
theorem abandoned_entries_released {σ : Type} [Inhabited σ] :
    ∀ (pps : PktPipelineSource σ) (h : PcapPkthdr) (bytes : List Nat) (e : PipelineHdr),
      e ∈ presentEntries (pktdump_process_one pps h bytes).finalList →
      e ∈ (pktdump_process_one pps h bytes).released := by
  intro pps h bytes e he
  exact he

/-- Witness for C4: with the init-failure demo stage registered (its process
operation leaves the entry in place), the demo frame's descriptor is
released at the end of the cycle. -/
theorem abandoned_entries_released_witness :
    ({ pkt_pipeline_hdr := mkTPacketHdr demoPkthdr } : PipelineHdr) ∈
      (pktdump_process_one (pktdump_pipeline_add (mkInitialSource Int 1) failInitStage).1
        demoPkthdr demoBytes).released :=
  abandoned_entries_released _ demoPkthdr demoBytes _ (by decide)

/-- C5: distinct batches are independent: dispatch runs one cycle per frame
no matter what the stages returned for earlier frames (the per-frame trace
list has one entry per frame, and pktdump_runpipeline still reports 0), and
every frame's stage execution starts again from the front of the
registration order (each trace begins with the first registered index that
has a process operation). -/
theorem batches_independent {σ : Type} [Inhabited σ] :
    ∀ (pps : PktPipelineSource σ) (frames : List (PcapPkthdr × List Nat)),
      (pcapDispatch pps frames).2.length = frames.length ∧
      (∀ tr ∈ (pcapDispatch pps frames).2, tr.head? = firstInvokable pps.ps_pipeline) ∧
      (pktdump_runpipeline pps frames).2 = 0 := by
  have main : ∀ (frames : List (PcapPkthdr × List Nat)) (pps : PktPipelineSource σ),
      (pcapDispatch pps frames).2.length = frames.length ∧
      (∀ tr ∈ (pcapDispatch pps frames).2, tr.head? = firstInvokable pps.ps_pipeline) := by
    intro frames
    induction frames with
    | nil => intro pps; exact ⟨rfl, by intro tr htr; cases htr⟩
    | cons f fs ih =>
        intro pps
        constructor
        · have := (ih (pktdump_process_one pps f.1 f.2).pps).1
          simp [pcapDispatch, this]
        · intro tr htr
          simp only [pcapDispatch, List.mem_cons] at htr
          cases htr with
          | inl hl =>
              subst hl
              exact processOne_invoked_head pps f.1 f.2
          | inr hr =>
              have := (ih (pktdump_process_one pps f.1 f.2).pps).2 tr hr
              rw [this]
              exact processOne_preserves_firstInvokable pps f.1 f.2
  intro pps frames
  refine ⟨(main frames pps).1, (main frames pps).2, ?_⟩
  have hne2 : ((frames.length : Int)) ≠ -2 := by omega
  have hne1 : ((frames.length : Int)) ≠ -1 := by omega
  simp [pktdump_runpipeline, runpipelineCode, hne2, hne1]

/-- Witness for C5: two frames through a source whose only stage fails with
7 on every frame; both cycles run, both traces start at stage 0, and the
run still reports 0. -/
theorem batches_independent_witness :
    (pcapDispatch demoFailSource [(demoPkthdr, demoBytes), (demoPkthdr, demoBytes)]).2.length
      = 2 ∧
    ([0] : List Nat).head? = firstInvokable demoFailSource.ps_pipeline ∧
    (pktdump_runpipeline demoFailSource [(demoPkthdr, demoBytes), (demoPkthdr, demoBytes)]).2
      = 0 := by
  refine ⟨(batches_independent demoFailSource _).1, ?_,
    (batches_independent demoFailSource [(demoPkthdr, demoBytes), (demoPkthdr, demoBytes)]).2.2⟩
  exact (batches_independent demoFailSource
    [(demoPkthdr, demoBytes), (demoPkthdr, demoBytes)]).2.1 [0] (by decide)

end PktDump
